import Mathlib

/-!
# BeHealthyAI chat widget (`chat.js`)

A shallow embedding of the client script: `appendMsg` and the form's `submit`
handler, together with the parts of the JavaScript runtime the handler calls
(`String.prototype.trim`, `parseInt`, `JSON.stringify` on the request object,
property access, `ToBoolean` and `ToString` on the parsed response).

Conventions of the embedding.

* JavaScript strings are Lean strings; the script only trims, concatenates and
  scans them, and every character it tests for lies in the Basic Multilingual
  Plane.
* The page is the triple of the chat log (`#chat`), `input.value` and
  `weightInput.value`.  `chat.scrollTop` and `e.preventDefault()` touch none of
  the three and are left out.
* The `async` handler is split at its first `await`: `submitSync` is the part
  that runs when the event fires, `submitResume` the part that runs once the
  network call has settled.  `submit` runs the two back to back.
* A thrown exception or rejected promise is `Except.error`; `try`/`catch` is a
  match on the result of the `try` block.
-/

namespace Chat

/-! ## Strings -/

/-- Code points removed by `String.prototype.trim`: the WhiteSpace and
LineTerminator productions of ECMAScript. -/
def isJsSpace (c : Char) : Bool :=
  let n := c.toNat
  n == 0x09 || n == 0x0A || n == 0x0B || n == 0x0C || n == 0x0D || n == 0x20 ||
  n == 0xA0 || n == 0x1680 || (0x2000 ≤ n && n ≤ 0x200A) || n == 0x2028 ||
  n == 0x2029 || n == 0x202F || n == 0x205F || n == 0x3000 || n == 0xFEFF

/-- Strip leading white space (`TrimString(s, start)`). -/
def trimStart (cs : List Char) : List Char :=
  cs.dropWhile isJsSpace

/-- Strip trailing white space (`TrimString(s, end)`). -/
def trimEnd (cs : List Char) : List Char :=
  (cs.reverse.dropWhile isJsSpace).reverse

/-- The method `s.trim()`. -/
def trim (s : String) : String :=
  ⟨trimEnd (trimStart s.data)⟩

/-- The `ToBoolean` of a string: every string but the empty one is truthy. -/
def strTruthy (s : String) : Bool :=
  !(s == "")

/-! ## Numbers produced by `parseInt` -/

/-- The Number values `parseInt` can return.  `int v` is the finite double whose
value is the integer `v` (`-0` is kept as `int 0`: `JSON.stringify` writes both
zeros as `0`). -/
inductive JsNum where
  | nan
  | infinity (negative : Bool)
  | int (v : Int)
deriving DecidableEq

/-- Least exponent `e`, searching upwards from `e` for `fuel` steps, at which
`n / 2^e` fits in 53 bits. -/
def findExp (n : Nat) : Nat → Nat → Option Nat
  | 0, _ => none
  | fuel + 1, e => if n / 2 ^ e < 2 ^ 53 then some e else findExp n fuel (e + 1)

/-- Nearest binary64 value to the natural number `n`, ties to even; `none` when
the result is `+∞`.  The finite doubles of magnitude at least `2^53` are the
`q * 2^e` with `2^52 ≤ q < 2^53` and `1 ≤ e ≤ 971`, so the exponent is searched
in `1..971`, and a mantissa that rounds up to `2^53` at `e = 971` overflows. -/
def toDouble (n : Nat) : Option Nat :=
  if n < 2 ^ 53 then some n
  else
    match findExp n 971 1 with
    | none => none
    | some e =>
      let q := n / 2 ^ e
      let r := n % 2 ^ e
      let h := 2 ^ e / 2
      let q' := if decide (h < r) || (r == h && q % 2 == 1) then q + 1 else q
      if q' == 2 ^ 53 && e == 971 then none else some (q' * 2 ^ e)

/-- Half-way point between the largest finite double and `2^1024`: every natural
number below it rounds to a finite double. -/
def overflowThreshold : Nat :=
  2 ^ 1024 - 2 ^ 970

/-- Value of a character as a digit: `0`-`9`, then `a`-`z` or `A`-`Z` for 10-35. -/
def digitValue (c : Char) : Option Nat :=
  let n := c.toNat
  if 48 ≤ n ∧ n ≤ 57 then some (n - 48)
  else if 97 ≤ n ∧ n ≤ 122 then some (n - 87)
  else if 65 ≤ n ∧ n ≤ 90 then some (n - 55)
  else none

/-- Whether `c` is a digit of radix `R`. -/
def isRadixDigit (R : Nat) (c : Char) : Bool :=
  match digitValue c with
  | some d => decide (d < R)
  | none => false

/-- The mathematical integer written by the radix-`R` digits `Z`. -/
def radixValue (R : Nat) (Z : List Char) : Nat :=
  Z.foldl (fun acc c => acc * R + (digitValue c).getD 0) 0

/-- After the sign: strip a `0x`/`0X` prefix (radix 16) or keep radix 10. -/
def splitRadix : List Char → Nat × List Char
  | '0' :: 'x' :: t => (16, t)
  | '0' :: 'X' :: t => (16, t)
  | S => (10, S)

/-- Split off a leading `-` or `+`; the flag is true for `-`. -/
def splitSign : List Char → Bool × List Char
  | '-' :: t => (true, t)
  | '+' :: t => (false, t)
  | S => (false, S)

/-- The call `parseInt(s)`, with no radix argument.  For a radix-10 numeral of more than
20 significant digits ECMAScript lets an implementation zero the digits after
the 20th; this definition takes the exact value. -/
def parseInt (s : String) : JsNum :=
  let S := trimStart s.data
  let (neg, S) := splitSign S
  let (R, S) := splitRadix S
  let Z := S.takeWhile (isRadixDigit R)
  if Z.isEmpty then JsNum.nan
  else
    match toDouble (radixValue R Z) with
    | none => JsNum.infinity neg
    | some v => JsNum.int (if neg then -(v : Int) else (v : Int))

/-! ## The request -/

/-- A JSON scalar in the request body.  `num v` is the numeral
`Number::toString` writes for the double of value `v`; for `|v| ≤ 2^53` that is
the decimal notation of `v`. -/
inductive Json where
  | null
  | num (v : Int)
  | str (s : String)
deriving DecidableEq

/-- A property value of the object literal passed to `JSON.stringify`. -/
inductive PropValue where
  | undefined
  | number (x : JsNum)
  | string (s : String)
deriving DecidableEq

/-- What `JSON.stringify` writes for one property: `undefined` drops the key, `NaN` and the
infinities are written `null`. -/
def stringifyProp (key : String) : PropValue → List (String × Json)
  | .undefined => []
  | .number (.int v) => [(key, .num v)]
  | .number _ => [(key, .null)]
  | .string s => [(key, .str s)]

/-- The call `JSON.stringify({ query: q, weight_g: wg })`, as the list of members
of the JSON object written, in order. -/
def stringifyBody (q : String) (wg : PropValue) : List (String × Json) :=
  stringifyProp "query" (.string q) ++ stringifyProp "weight_g" wg

/-- The arguments of one `fetch` call. -/
structure Request where
  url : String
  method : String
  headers : List (String × String)
  body : List (String × Json)
deriving DecidableEq

/-! ## The parsed response -/

/-- What the handler uses of a Number of the parsed response: its
`Number::toString` (template literal, `textContent`) and its `ToBoolean`
(`!data.ok`, `data.message || ...`).  The handler is written over any
representation of numbers with these two operations; `JsDouble` below is the
one of the doubles themselves. -/
class JsNumber (ν : Type) where
  toStr : ν → String
  truthy : ν → Bool

/-- A value returned by `res.json()`. `obj` lists the own properties of a parsed
object, each key once. -/
inductive JsVal (ν : Type) where
  | null
  | bool (b : Bool)
  | num (x : ν)
  | str (s : String)
  | arr (xs : List (JsVal ν))
  | obj (fields : List (String × JsVal ν))

/-- What a `try` block can throw here. -/
inductive JsError where
  | typeError
  | rejected
deriving DecidableEq

/-- How the network call settles: `fetch` rejects, `res.json()` rejects (the
body is not JSON), or `res.json()` yields `data`. -/
inductive Outcome (ν : Type) where
  | fetchRejected
  | jsonRejected
  | parsed (data : JsVal ν)

/-- The property read `v.key` for the keys the handler reads (`ok`, `message`,
`matched_name`, `weight_g`, `calories`, `protein`, `carbs`, `fat`), none of
which is defined on a built-in prototype: `null` throws, an object yields its own
property, anything else yields `undefined` (`none`). -/
def JsVal.getProp {ν : Type} : JsVal ν → String → Except JsError (Option (JsVal ν))
  | .null, _ => .error .typeError
  | .obj fields, key => .ok (fields.lookup key)
  | _, _ => .ok none

/-- The abstract operation `ToBoolean`, with `none` for `undefined`. -/
def toBoolean {ν : Type} [JsNumber ν] : Option (JsVal ν) → Bool
  | none => false
  | some .null => false
  | some (.bool b) => b
  | some (.num x) => JsNumber.truthy x
  | some (.str s) => strTruthy s
  | some (.arr _) => true
  | some (.obj _) => true

mutual
/-- The abstract operation `ToString` on a parsed value.  A parsed object with an own `toString`
property (never callable) has no usable conversion and throws; any other gives
`[object Object]`.  An array is joined with commas. -/
def JsVal.toStr {ν : Type} [JsNumber ν] : JsVal ν → Except JsError String
  | .null => .ok "null"
  | .bool b => .ok (if b then "true" else "false")
  | .num x => .ok (JsNumber.toStr x)
  | .str s => .ok s
  | .arr xs => JsVal.join xs
  | .obj fields =>
    if fields.any (fun kv => kv.1 == "toString") then .error .typeError
    else .ok "[object Object]"
termination_by structural v => v
/-- The method `Array.prototype.join` with the default separator: a `null` element is
written as the empty string. -/
def JsVal.join {ν : Type} [JsNumber ν] : List (JsVal ν) → Except JsError String
  | [] => .ok ""
  | x :: rest => do
    let first ← (match x with
      | .null => .ok ""
      | v => JsVal.toStr v)
    let others ← JsVal.join rest
    pure (if rest.isEmpty then first else first ++ "," ++ others)
termination_by structural xs => xs
end

/-- The abstract operation `ToString`, with `none` for `undefined`. -/
def toStr {ν : Type} [JsNumber ν] : Option (JsVal ν) → Except JsError String
  | none => .ok "undefined"
  | some v => v.toStr

/-! ## The page -/

/-- One `div` appended to `#chat`. -/
structure ChatEntry where
  className : String
  textContent : String
deriving DecidableEq

/-- The children of `#chat`, `input.value` and `weightInput.value`. -/
structure Page where
  chat : List ChatEntry
  input : String
  weight : String
deriving DecidableEq

/-- The function `appendMsg(text, role)`. -/
def appendMsg (text role : String) (p : Page) : Page :=
  let div : ChatEntry :=
    { className := "msg " ++ (if role = "user" then "user" else "bot"),
      textContent := text }
  { p with chat := p.chat ++ [div] }

/-- The page once the script has loaded: the greeting, both fields empty. -/
def initialPage : Page :=
  appendMsg "Hi! Ask food (chicken 150g)" "bot" { chat := [], input := "", weight := "" }

/-- Role of an entry, read off its class name. -/
def ChatEntry.isUser (e : ChatEntry) : Bool :=
  e.className == "msg user"

/-- Role of an entry, read off its class name. -/
def ChatEntry.isBot (e : ChatEntry) : Bool :=
  e.className == "msg bot"

/-! ## The submit handler -/

/-- The handler up to its first `await`: the page it leaves and the `fetch`
call it issues, if any. -/
def submitSync (p : Page) : Page × Option Request :=
  let q := trim p.input
  let w := trim p.weight
  if !strTruthy q then (p, none)
  else
    let p := appendMsg (if strTruthy w then q ++ " " ++ w ++ "g" else q) "user" p
    let p := { p with input := "" }
    let p := { p with weight := "" }
    (p, some
      { url := "/api/nutrition",
        method := "POST",
        headers := [("Content-Type", "application/json")],
        body := stringifyBody q
          (if strTruthy w then .number (parseInt w) else .undefined) })

/-- The two `await`s: the value of `data`, or the rejection thrown. -/
def awaitData {ν : Type} : Outcome ν → Except JsError (JsVal ν)
  | .fetchRejected => .error .rejected
  | .jsonRejected => .error .rejected
  | .parsed data => .ok data

/-- The text the `try` block hands to `appendMsg`, converted as the
`textContent` setter converts it; an error if the block throws first. -/
def botText {ν : Type} [JsNumber ν] (o : Outcome ν) : Except JsError String := do
  let data ← awaitData o
  let ok ← data.getProp "ok"
  if !toBoolean ok then
    let message ← data.getProp "message"
    if toBoolean message then toStr message else pure "Food not found"
  else
    let matched_name ← toStr (← data.getProp "matched_name")
    let weight_g ← toStr (← data.getProp "weight_g")
    let calories ← toStr (← data.getProp "calories")
    let protein ← toStr (← data.getProp "protein")
    let carbs ← toStr (← data.getProp "carbs")
    let fat ← toStr (← data.getProp "fat")
    pure (matched_name ++ " (" ++ weight_g ++ "g)\nCalories:" ++ calories ++
      " Protein:" ++ protein ++ " Carbs:" ++ carbs ++ " Fat:" ++ fat)

/-- The `try` block: everything that can throw comes before the `appendChild`
inside `appendMsg`, so a throw leaves the page as it was. -/
def tryBlock {ν : Type} [JsNumber ν] (o : Outcome ν) (p : Page) : Except JsError Page := do
  let text ← botText o
  pure (appendMsg text "bot" p)

/-- The handler from the first `await` on: the `try` block, and the `catch`
block when it throws.  The result is the handler's completion. -/
def submitResume {ν : Type} [JsNumber ν] (o : Outcome ν) (p : Page) : Except JsError Page :=
  match tryBlock o p with
  | .ok p' => .ok p'
  | .error _ => .ok (appendMsg "Network/server error" "bot" p)

/-- One run of the handler with the network call settling as `o`: the
completion, with the final page and the `fetch` call issued. -/
def submit {ν : Type} [JsNumber ν] (o : Outcome ν) (p : Page) :
    Except JsError (Page × Option Request) :=
  match submitSync p with
  | (p1, none) => .ok (p1, none)
  | (p1, some req) => do
    let p2 ← submitResume o p1
    pure (p2, some req)

/-! ## A concrete number type -/

/-- Decimal notation of an integer, as `Number::toString` writes an integer of
magnitude below `2^53`. -/
def intToDecimal : Int → String
  | .ofNat n => Nat.repr n
  | .negSucc n => "-" ++ Nat.repr (n + 1)

/-- The integers every one of which is a double (`Number.isSafeInteger`). -/
abbrev SafeInteger : Type := { n : Int // n.natAbs < 2 ^ 53 }

instance : JsNumber SafeInteger where
  toStr n := intToDecimal n.1
  truthy n := n.1 != 0

/-! ## Doubles and `Number::toString` -/

/-- A positive rational number, as a numerator over a non-zero denominator. -/
structure Frac where
  num : Nat
  den : Nat

/-- The rational `m * b ^ x` for an integer exponent `x`. -/
def scale (m b : Nat) (x : Int) : Frac :=
  if 0 ≤ x then ⟨m * b ^ x.toNat, 1⟩ else ⟨m, b ^ (-x).toNat⟩

/-- Whether `x < y`. -/
def Frac.lt (x y : Frac) : Bool :=
  decide (x.num * y.den < y.num * x.den)

/-- Whether `x ≤ y`. -/
def Frac.le (x y : Frac) : Bool :=
  decide (x.num * y.den ≤ y.num * x.den)

/-- The product of two rationals. -/
def Frac.mul (x y : Frac) : Frac :=
  ⟨x.num * y.num, x.den * y.den⟩

/-- Number of halvings, at most `fuel`, that bring `n` below 2. -/
def halvings : Nat → Nat → Nat
  | 0, _ => 0
  | fuel + 1, n => if n < 2 then 0 else halvings fuel (n / 2) + 1

/-- The integer `⌊log₂ n⌋` for a positive `n`. -/
def log2 (n : Nat) : Nat :=
  halvings n n

/-- The integer `⌊log₂ x⌋` for a positive rational `x`. -/
def floorLog2 (x : Frac) : Int :=
  let l : Int := (log2 x.num : Int) - (log2 x.den : Int)
  if (scale 1 2 l).le x then l else l - 1

/-- The double nearest to the positive rational `x`, ties to even, as a mantissa
`m ≤ 2^53` and an exponent `e ≥ -1074` with value `m * 2^e`; `none` when the
result is `+∞`.  This is the `𝔽` of ECMAScript on positive reals. -/
def roundDouble (x : Frac) : Option (Nat × Int) :=
  let t := floorLog2 x
  let e := max (t - 52) (-1074)
  let y := x.mul (scale 1 2 (-e))
  let q := y.num / y.den
  let r := y.num % y.den
  let m := if decide (y.den < 2 * r) || (2 * r == y.den && q % 2 == 1) then q + 1 else q
  if decide (971 < e) || (e == 971 && m == 2 ^ 53) then none else some (m, e)

/-- Whether `𝔽(x)` is the double `m * 2^e`. -/
def roundsTo (x : Frac) (m : Nat) (e : Int) : Bool :=
  match roundDouble x with
  | none => false
  | some (m', e') =>
    let a := scale m' 2 e'
    let b := scale m 2 e
    a.num * b.den == b.num * a.den

/-- Least `n`, searching upwards from `n` for `fuel` steps, with `v < 10 ^ n`. -/
def findDecExp (v : Frac) : Nat → Int → Int
  | 0, n => n
  | fuel + 1, n => if v.lt (scale 1 10 n) then n else findDecExp v fuel (n + 1)

/-- The integer `n` with `10 ^ (n - 1) ≤ v < 10 ^ n`, searched from just below
the estimate `⌊log₂ v⌋ * log₁₀ 2`. -/
def decExp (v : Frac) : Int :=
  findDecExp v 6 ((floorLog2 v * 30103) / 100000 - 2)

/-- Step 5 of `Number::toString` for the double `m * 2^e`, trying `k`, `k + 1`, ...
digits: integers `s` and `n` with `10^(k-1) ≤ s < 10^k` and
`𝔽(s * 10^(n-k)) = m * 2^e` for the least such `k`.  Of the `s` that qualify
the one nearest to the number is taken, the even one on a tie, as ECMAScript
recommends and the engines do; it is the floor or the ceiling of
`m * 2^e / 10^(n0-k)`, where `10^(n0-1) ≤ m * 2^e < 10^n0`. -/
def shortestFrom (m : Nat) (e : Int) (n0 : Int) : Nat → Nat → Nat × Int
  | 0, _ => (0, 0)
  | fuel + 1, k =>
    let v := scale m 2 e
    let w := v.mul (scale 1 10 ((k : Int) - n0))
    let lo := w.num / w.den
    let r := w.num % w.den
    let hi := lo + 1
    let okLo := roundsTo (scale lo 10 (n0 - k)) m e
    let okHi := r != 0 && roundsTo (scale hi 10 (n0 - k)) m e
    let pickHi := okHi && (!okLo || decide (w.den < 2 * r) || (2 * r == w.den && lo % 2 == 1))
    if pickHi then (if hi == 10 ^ k then (hi / 10, n0 + 1) else (hi, n0))
    else if okLo then (lo, n0)
    else shortestFrom m e n0 fuel (k + 1)

/-- The digits `s` and the decimal exponent `n` of the double `m * 2^e`; 17
digits always suffice. -/
def shortest (m : Nat) (e : Int) : Nat × Int :=
  shortestFrom m e (decExp (scale m 2 e)) 17 1

/-- Steps 6 to 10 of `Number::toString`: plain notation for `-6 < n ≤ 21`,
exponent notation otherwise. -/
def layout (s : Nat) (n : Int) : String :=
  let ds := Nat.toDigits 10 s
  let k : Int := ds.length
  if k ≤ n ∧ n ≤ 21 then String.mk (ds ++ List.replicate (n - k).toNat '0')
  else if 0 < n ∧ n ≤ 21 then String.mk (ds.take n.toNat ++ '.' :: ds.drop n.toNat)
  else if -6 < n ∧ n ≤ 0 then String.mk ('0' :: '.' :: List.replicate (-n).toNat '0' ++ ds)
  else
    let x := n - 1
    let sign := if x < 0 then '-' else '+'
    let xs := Nat.toDigits 10 x.natAbs
    if k = 1 then String.mk (ds ++ 'e' :: sign :: xs)
    else String.mk (ds.take 1 ++ '.' :: ds.drop 1 ++ 'e' :: sign :: xs)

/-- A Number that `JSON.parse` can produce: a zero, an infinity (a numeral too
large for a double) or the finite double `± m * 2^e`, with `m` below `2^53` and
`e` from `-1074` to `971`. -/
inductive JsDouble where
  | zero (negative : Bool)
  | infinity (negative : Bool)
  | finite (negative : Bool) (m : Nat) (e : Int) (hm : 0 < m ∧ m < 2 ^ 53)
      (he : -1074 ≤ e ∧ e ≤ 971)

/-- The operation `Number::toString` in radix 10. -/
def numberToString : JsDouble → String
  | .zero _ => "0"
  | .infinity negative => if negative then "-Infinity" else "Infinity"
  | .finite negative m e _ _ =>
    let (s, n) := shortest m e
    if negative then "-" ++ layout s n else layout s n

/-- The `ToBoolean` of a Number: false for both zeros. -/
def numberTruthy : JsDouble → Bool
  | .zero _ => false
  | _ => true

instance : JsNumber JsDouble where
  toStr := numberToString
  truthy := numberTruthy

/-! ## Notions of the specification -/

/-- An ASCII digit `0`-`9`. -/
def isDecimalDigit (c : Char) : Bool :=
  decide (48 ≤ c.toNat ∧ c.toNat ≤ 57)

/-- Positional value of a string of decimal digits. -/
def digitsValue : List Char → Nat
  | [] => 0
  | c :: t => (c.toNat - 48) * 10 ^ t.length + digitsValue t

/-- The natural number an unsigned decimal numeral (one or more digits) writes. -/
def unsignedNumeral (ds : List Char) : Option Nat :=
  if !ds.isEmpty && ds.all isDecimalDigit then some (digitsValue ds) else none

/-- The integer a decimal numeral writes: an optional minus sign, then one or
more digits; `none` for any other text. -/
def decimalNumeral : List Char → Option Int
  | '-' :: ds => (unsignedNumeral ds).map (fun (v : Nat) => -(v : Int))
  | ds => (unsignedNumeral ds).map (fun (v : Nat) => (v : Int))

/-- A JSON value that is a non-negative integer. -/
def Json.isNonNegInteger : Json → Bool
  | .num v => decide (0 ≤ v)
  | _ => false

/-! ## Sample inputs -/

/-- The freshly loaded page with `chicken` and `150` typed in. -/
def chickenPage : Page :=
  { initialPage with input := " chicken ", weight := "150" }

/-- The freshly loaded page with `banana` typed in and no weight. -/
def bananaPage : Page :=
  { initialPage with input := "banana", weight := "" }

/-- The members of the successful response of the specification's example. -/
def chickenFields : List (String × JsVal SafeInteger) :=
  [("ok", .bool true), ("matched_name", .str "Chicken Breast"),
    ("weight_g", .num ⟨150, by decide⟩), ("calories", .num ⟨248, by decide⟩),
    ("protein", .num ⟨46, by decide⟩), ("carbs", .num ⟨0, by decide⟩),
    ("fat", .num ⟨5, by decide⟩)]

/-- The successful response of the specification's example. -/
def chickenData : JsVal SafeInteger :=
  .obj chickenFields

/-- The successful response of the specification's example, its numbers as
doubles. -/
def chickenDoubles : List (String × JsVal JsDouble) :=
  [("ok", .bool true), ("matched_name", .str "Chicken Breast"),
    ("weight_g", .num (.finite false 150 0 (by decide) (by decide))),
    ("calories", .num (.finite false 248 0 (by decide) (by decide))),
    ("protein", .num (.finite false 46 0 (by decide) (by decide))),
    ("carbs", .num (.zero false)),
    ("fat", .num (.finite false 5 0 (by decide) (by decide)))]

/-- A successful response with fractional numbers: 100.5 g, 52.25 kcal, protein
0.3, carbs 13.8, fat 0.2, each the double nearest to the numeral. -/
def appleDoubles : List (String × JsVal JsDouble) :=
  [("ok", .bool true), ("matched_name", .str "Apple"),
    ("weight_g", .num (.finite false 201 (-1) (by decide) (by decide))),
    ("calories", .num (.finite false 209 (-2) (by decide) (by decide))),
    ("protein", .num (.finite false 5404319552844595 (-54) (by decide) (by decide))),
    ("carbs", .num (.finite false 3884354678607053 (-48) (by decide) (by decide))),
    ("fat", .num (.finite false 3602879701896397 (-54) (by decide) (by decide)))]

/-- The members of the bare failure response: `ok` false, no message. -/
def notFoundFields : List (String × JsVal SafeInteger) :=
  [("ok", .bool false)]

/-- The members of the failure response with a message. -/
def ambiguousFields : List (String × JsVal SafeInteger) :=
  [("ok", .bool false), ("message", .str "Ambiguous match")]

/-! ## Lemmas on `trim` and `parseInt` -/

theorem dropWhile_append_last (f : Char → Bool) (xs : List Char) (c : Char) (h : f c = false) :
    (xs ++ [c]).dropWhile f = xs.dropWhile f ++ [c] := by
  induction xs with
  | nil => simp [List.dropWhile, h]
  | cons x t ih =>
    by_cases hx : f x = true
    · simp [List.dropWhile, hx, ih]
    · simp [List.dropWhile, hx]

theorem dropWhile_head_false (f : Char → Bool) (l : List Char) :
    l.dropWhile f = [] ∨ ∃ c t, l.dropWhile f = c :: t ∧ f c = false := by
  induction l with
  | nil => exact Or.inl rfl
  | cons x t ih =>
    by_cases hx : f x = true
    · simpa [List.dropWhile, hx] using ih
    · exact Or.inr ⟨x, t, by simp [List.dropWhile, hx], by simpa using hx⟩

/-- A trimmed string has no leading white space left for `parseInt` to strip. -/
theorem trimStart_trim (s : String) : trimStart (trim s).data = (trim s).data := by
  show trimStart (trimEnd (trimStart s.data)) = trimEnd (trimStart s.data)
  rcases dropWhile_head_false isJsSpace s.data with h | ⟨c, t, h, hc⟩
  · simp [trimStart, trimEnd, h]
  · have e : trimEnd (trimStart s.data) = c :: (t.reverse.dropWhile isJsSpace).reverse := by
      simp [trimStart, trimEnd, h, dropWhile_append_last isJsSpace t.reverse c hc]
    rw [e]
    simp [trimStart, List.dropWhile, hc]

theorem isJsSpace_digit (c : Char) (h : isDecimalDigit c = true) : isJsSpace c = false := by
  simp only [isDecimalDigit, decide_eq_true_eq] at h
  simp only [isJsSpace, Bool.or_eq_false_iff, Bool.and_eq_false_iff, beq_eq_false_iff_ne, ne_eq,
    decide_eq_false_iff_not]
  omega

theorem digitValue_digit (c : Char) (h : isDecimalDigit c = true) :
    digitValue c = some (c.toNat - 48) := by
  simp only [isDecimalDigit, decide_eq_true_eq] at h
  simp [digitValue, h]

theorem isRadixDigit_digit (c : Char) (h : isDecimalDigit c = true) :
    isRadixDigit 10 c = true := by
  have h' := h
  simp only [isDecimalDigit, decide_eq_true_eq] at h'
  simp only [isRadixDigit, digitValue_digit c h, decide_eq_true_eq]
  omega

theorem takeWhile_digits (ds : List Char) (h : ds.all isDecimalDigit = true) :
    ds.takeWhile (isRadixDigit 10) = ds := by
  induction ds with
  | nil => rfl
  | cons c t ih =>
    simp only [List.all_cons, Bool.and_eq_true] at h
    simp [List.takeWhile, isRadixDigit_digit c h.1, ih h.2]

theorem radixValue_digits_aux (ds : List Char) (h : ds.all isDecimalDigit = true) (acc : Nat) :
    ds.foldl (fun a c => a * 10 + (digitValue c).getD 0) acc =
      acc * 10 ^ ds.length + digitsValue ds := by
  induction ds generalizing acc with
  | nil => simp [digitsValue]
  | cons c t ih =>
    simp only [List.all_cons, Bool.and_eq_true] at h
    simp only [List.foldl_cons, ih h.2, digitValue_digit c h.1, Option.getD_some, digitsValue,
      List.length_cons]
    ring

theorem radixValue_digits (ds : List Char) (h : ds.all isDecimalDigit = true) :
    radixValue 10 ds = digitsValue ds := by
  simp [radixValue, radixValue_digits_aux ds h 0]

theorem splitSign_digit (c : Char) (t : List Char) (h : isDecimalDigit c = true) :
    splitSign (c :: t) = (false, c :: t) := by
  simp only [isDecimalDigit, decide_eq_true_eq] at h
  unfold splitSign
  split
  · rename_i heq
    simp only [List.cons.injEq] at heq
    rw [heq.1] at h
    simp at h
  · rename_i heq
    simp only [List.cons.injEq] at heq
    rw [heq.1] at h
    simp at h
  · rfl

theorem splitRadix_digits (ds : List Char) (h : ds.all isDecimalDigit = true) :
    splitRadix ds = (10, ds) := by
  unfold splitRadix
  split
  · simp [isDecimalDigit] at h
  · simp [isDecimalDigit] at h
  · rfl

theorem toDouble_exact (n : Nat) (h : n ≤ 2 ^ 53) : toDouble n = some n := by
  rcases Nat.lt_or_eq_of_le h with h | h
  · unfold toDouble
    rw [if_pos h]
  · subst h
    decide

theorem findExp_none (n : Nat) (fuel : Nat) :
    ∀ e, findExp n fuel e = none → ∀ k, e ≤ k → k < e + fuel → 2 ^ 53 ≤ n / 2 ^ k := by
  induction fuel with
  | zero => intro e _ k h1 h2; omega
  | succ f ih =>
    intro e h k h1 h2
    unfold findExp at h
    split at h
    · simp at h
    · rename_i hlt
      rcases Nat.eq_or_lt_of_le h1 with rfl | h3
      · exact Nat.le_of_not_lt hlt
      · exact ih (e + 1) h k h3 (by omega)

theorem findExp_some (n : Nat) (fuel : Nat) :
    ∀ e k, findExp n fuel e = some k → e ≤ k ∧ k < e + fuel ∧ n / 2 ^ k < 2 ^ 53 := by
  induction fuel with
  | zero => intro e k h; simp [findExp] at h
  | succ f ih =>
    intro e k h
    unfold findExp at h
    split at h
    · rename_i hlt
      simp only [Option.some.injEq] at h
      subst h
      exact ⟨le_refl _, by omega, hlt⟩
    · obtain ⟨h1, h2, h3⟩ := ih (e + 1) k h
      exact ⟨by omega, by omega, h3⟩

theorem toDouble_finite (n : Nat) (h : n < overflowThreshold) : ∃ v, toDouble n = some v := by
  unfold overflowThreshold at h
  have hA : (2 : Nat) ^ 971 = 2 * 2 ^ 970 := by rw [pow_succ]; ring
  have hB : (2 : Nat) ^ 1024 = 2 ^ 54 * 2 ^ 970 := by rw [← pow_add]
  have hpos : 0 < (2 : Nat) ^ 970 := by positivity
  unfold toDouble
  split
  · exact ⟨n, rfl⟩
  · cases hf : findExp n 971 1 with
    | none =>
      exfalso
      have h1 := findExp_none n 971 1 hf 971 (by omega) (by omega)
      have h2 : 2 ^ 53 * 2 ^ 971 ≤ n := (Nat.le_div_iff_mul_le (by positivity)).1 h1
      have h3 : (2 : Nat) ^ 53 * 2 ^ 971 = 2 ^ 1024 := by rw [← pow_add]
      have h4 : 2 ^ 1024 - 2 ^ 970 ≤ 2 ^ 1024 := Nat.sub_le _ _
      omega
    | some e =>
      obtain ⟨h1, h2, h3⟩ := findExp_some n 971 1 e hf
      have key : ¬ (((if decide (2 ^ e / 2 < n % 2 ^ e) ||
          (n % 2 ^ e == 2 ^ e / 2 && n / 2 ^ e % 2 == 1) then n / 2 ^ e + 1
          else n / 2 ^ e) == 2 ^ 53 && e == 971) = true) := by
        intro hc
        rw [Bool.and_eq_true, beq_iff_eq, beq_iff_eq] at hc
        obtain ⟨hq, he⟩ := hc
        subst he
        by_cases hr : (decide (2 ^ 971 / 2 < n % 2 ^ 971) ||
            (n % 2 ^ 971 == 2 ^ 971 / 2 && n / 2 ^ 971 % 2 == 1)) = true
        · rw [if_pos hr] at hq
          have hr' : 2 ^ 971 / 2 ≤ n % 2 ^ 971 := by
            rw [Bool.or_eq_true, Bool.and_eq_true, decide_eq_true_eq, beq_iff_eq] at hr
            rcases hr with hr | ⟨hr, _⟩
            · exact Nat.le_of_lt hr
            · exact Nat.le_of_eq hr.symm
          have hdm := Nat.div_add_mod n (2 ^ 971)
          have hq2 : n / 2 ^ 971 = 2 ^ 53 - 1 := by omega
          rw [hq2] at hdm
          have hhalf : (2 : Nat) ^ 971 / 2 = 2 ^ 970 := by rw [hA]; omega
          rw [hhalf] at hr'
          rw [hB] at h
          rw [hA] at hdm
          generalize (2 : Nat) ^ 970 = A at *
          generalize n % (2 * A) = r at *
          omega
        · rw [if_neg hr] at hq
          omega
      dsimp only
      rw [if_neg key]
      exact ⟨_, rfl⟩

theorem parseInt_of_digits_general (s : String) (ds : List Char) (hs : trimStart s.data = ds)
    (hne : ds ≠ []) (hd : ds.all isDecimalDigit = true) :
    parseInt s =
      match toDouble (digitsValue ds) with
      | none => .infinity false
      | some v => .int (v : Int) := by
  cases ds with
  | nil => exact absurd rfl hne
  | cons c t =>
    have hc : isDecimalDigit c = true := by
      simp only [List.all_cons, Bool.and_eq_true] at hd
      exact hd.1
    simp [parseInt, hs, splitSign_digit c t hc, splitRadix_digits (c :: t) hd,
      takeWhile_digits (c :: t) hd, radixValue_digits (c :: t) hd]

theorem parseInt_of_digits (s : String) (ds : List Char) (hs : trimStart s.data = ds)
    (hne : ds ≠ []) (hd : ds.all isDecimalDigit = true) (hv : digitsValue ds ≤ 2 ^ 53) :
    parseInt s = .int (digitsValue ds) := by
  cases ds with
  | nil => exact absurd rfl hne
  | cons c t =>
    have hc : isDecimalDigit c = true := by
      simp only [List.all_cons, Bool.and_eq_true] at hd
      exact hd.1
    simp [parseInt, hs, splitSign_digit c t hc, splitRadix_digits (c :: t) hd,
      takeWhile_digits (c :: t) hd, radixValue_digits (c :: t) hd, toDouble_exact _ hv]

theorem parseInt_of_minus_digits (s : String) (ds : List Char)
    (hs : trimStart s.data = '-' :: ds)
    (hne : ds ≠ []) (hd : ds.all isDecimalDigit = true) (hv : digitsValue ds ≤ 2 ^ 53) :
    parseInt s = .int (-(digitsValue ds : Int)) := by
  cases ds with
  | nil => exact absurd rfl hne
  | cons c t =>
    simp [parseInt, hs, splitSign, splitRadix_digits (c :: t) hd,
      takeWhile_digits (c :: t) hd, radixValue_digits (c :: t) hd, toDouble_exact _ hv]

theorem splitSign_true (l : List Char) (h : (splitSign l).1 = true) : l.head? = some '-' := by
  unfold splitSign at h
  split at h
  · rfl
  · simp at h
  · simp at h

theorem parseInt_cases (s : String) :
    parseInt s = .nan ∨ (∃ b, parseInt s = .infinity b) ∨ (∃ v : Nat, parseInt s = .int v) ∨
    (∃ v : Nat, parseInt s = .int (-(v : Int)) ∧ (trimStart s.data).head? = some '-') := by
  unfold parseInt
  simp only
  split
  · exact Or.inl rfl
  · split
    · exact Or.inr (Or.inl ⟨_, rfl⟩)
    · rename_i v hv
      by_cases hneg : (splitSign (trimStart s.data)).1 = true
      · exact Or.inr (Or.inr (Or.inr ⟨v, by simp [hneg], splitSign_true _ hneg⟩))
      · exact Or.inr (Or.inr (Or.inl ⟨v, by simp [hneg]⟩))

theorem string_ne_empty_of_data (s : String) (c : Char) (t : List Char)
    (h : s.data = c :: t) : s ≠ "" := by
  intro e
  rw [e] at h
  simp at h

theorem unsignedNumeral_some (ds : List Char) (v : Nat) (h : unsignedNumeral ds = some v) :
    ds ≠ [] ∧ ds.all isDecimalDigit = true ∧ v = digitsValue ds := by
  unfold unsignedNumeral at h
  split at h
  · rename_i hc
    simp only [Bool.and_eq_true, Bool.not_eq_true', List.isEmpty_eq_false] at hc
    simp only [Option.some.injEq] at h
    exact ⟨hc.1, hc.2, h.symm⟩
  · simp at h

/-! ## Lemmas on the handler -/

theorem strTruthy_iff (s : String) : strTruthy s = true ↔ s ≠ "" := by
  simp [strTruthy]

theorem submitSync_empty (p : Page) (h : trim p.input = "") : submitSync p = (p, none) := by
  simp [submitSync, h, strTruthy]

theorem submitSync_nonempty (p : Page) (h : trim p.input ≠ "") :
    submitSync p =
      ({ chat := p.chat ++ [⟨"msg user",
            if strTruthy (trim p.weight) then trim p.input ++ " " ++ trim p.weight ++ "g"
            else trim p.input⟩],
         input := "", weight := "" },
       some
        { url := "/api/nutrition",
          method := "POST",
          headers := [("Content-Type", "application/json")],
          body := stringifyBody (trim p.input)
            (if strTruthy (trim p.weight) then .number (parseInt (trim p.weight))
             else .undefined) }) := by
  have h' : strTruthy (trim p.input) = true := (strTruthy_iff _).2 h
  simp [submitSync, h', appendMsg]

theorem submitResume_of_text {ν : Type} [JsNumber ν] (o : Outcome ν) (p : Page) (t : String)
    (h : botText o = .ok t) : submitResume o p = .ok (appendMsg t "bot" p) := by
  simp [submitResume, tryBlock, h, bind, Except.bind, pure, Except.pure]

theorem submitResume_of_throw {ν : Type} [JsNumber ν] (o : Outcome ν) (p : Page) (e : JsError)
    (h : botText o = .error e) :
    submitResume o p = .ok (appendMsg "Network/server error" "bot" p) := by
  simp [submitResume, tryBlock, h, bind, Except.bind]

theorem submitResume_total {ν : Type} [JsNumber ν] (o : Outcome ν) (p : Page) :
    ∃ t, submitResume o p = .ok (appendMsg t "bot" p) := by
  cases h : botText o with
  | error e => exact ⟨"Network/server error", submitResume_of_throw o p e h⟩
  | ok t => exact ⟨t, submitResume_of_text o p t h⟩

theorem submit_empty {ν : Type} [JsNumber ν] (o : Outcome ν) (p : Page)
    (h : trim p.input = "") : submit o p = .ok (p, none) := by
  simp [submit, submitSync_empty p h]

theorem submit_nonempty {ν : Type} [JsNumber ν] (o : Outcome ν) (p : Page)
    (h : trim p.input ≠ "") :
    ∃ t, submit o p = .ok (appendMsg t "bot" (submitSync p).1, (submitSync p).2) := by
  obtain ⟨t, ht⟩ := submitResume_total o (submitSync p).1
  refine ⟨t, ?_⟩
  rw [submitSync_nonempty p h] at ht ⊢
  simp only [submit, submitSync_nonempty p h]
  simp [ht, bind, Except.bind, pure, Except.pure]

theorem submitResume_summary {ν : Type} [JsNumber ν] (fields : List (String × JsVal ν))
    (p : Page) (hok : toBoolean (fields.lookup "ok") = true) (name w c pr cb f : String)
    (h1 : toStr (fields.lookup "matched_name") = .ok name)
    (h2 : toStr (fields.lookup "weight_g") = .ok w)
    (h3 : toStr (fields.lookup "calories") = .ok c)
    (h4 : toStr (fields.lookup "protein") = .ok pr)
    (h5 : toStr (fields.lookup "carbs") = .ok cb)
    (h6 : toStr (fields.lookup "fat") = .ok f) :
    submitResume (.parsed (.obj fields)) p =
      .ok (appendMsg (name ++ " (" ++ w ++ "g)\nCalories:" ++ c ++ " Protein:" ++ pr ++
        " Carbs:" ++ cb ++ " Fat:" ++ f) "bot" p) := by
  apply submitResume_of_text
  simp [botText, awaitData, JsVal.getProp, hok, h1, h2, h3, h4, h5, h6, bind, Except.bind,
    pure, Except.pure]

theorem toStr_str {ν : Type} [JsNumber ν] (o : Option (JsVal ν)) (s : String)
    (h : o = some (.str s)) : toStr o = .ok s := by
  rw [h]; simp [toStr, JsVal.toStr]

theorem toStr_num {ν : Type} [JsNumber ν] (o : Option (JsVal ν)) (x : ν)
    (h : o = some (.num x)) : toStr o = .ok (JsNumber.toStr x) := by
  rw [h]; simp [toStr, JsVal.toStr]

/-! ## The claims -/

/-- C1: a submission whose query is non-empty after trimming adds exactly two
entries to the log, whatever the log, the weight text and the way the network
call settles: a user entry, in place when the `fetch` call is issued, followed
by one bot entry. The part of the handler that runs once the call has settled
adds exactly one bot entry to whatever page it finds. -/
theorem submit_adds_user_then_bot {ν : Type} [JsNumber ν] (o : Outcome ν) (p : Page)
    (hq : trim p.input ≠ "") :
    (∃ u b req p1 p2,
      submitSync p = (p1, some req) ∧ p1.chat = p.chat ++ [u] ∧
      submit o p = .ok (p2, some req) ∧ p2.chat = p.chat ++ [u, b] ∧
      u.isUser = true ∧ u.isBot = false ∧ b.isBot = true ∧ b.isUser = false) ∧
    (∀ p1 : Page, ∃ b p2, submitResume o p1 = .ok p2 ∧ p2.chat = p1.chat ++ [b] ∧
      b.isBot = true ∧ b.isUser = false) := by
  constructor
  · obtain ⟨t, ht⟩ := submit_nonempty o p hq
    rw [submitSync_nonempty p hq] at ht
    refine ⟨_, ⟨"msg bot", t⟩, _, _, _, submitSync_nonempty p hq, rfl, ht, ?_, ?_, ?_, ?_, ?_⟩
    · simp [appendMsg]
    · simp [ChatEntry.isUser]
    · simp [ChatEntry.isBot]
    · simp [ChatEntry.isBot]
    · simp [ChatEntry.isUser]
  · intro p1
    obtain ⟨t, ht⟩ := submitResume_total o p1
    exact ⟨⟨"msg bot", t⟩, _, ht, rfl, by simp [ChatEntry.isBot], by simp [ChatEntry.isUser]⟩

theorem submit_adds_user_then_bot_witness :
    trim chickenPage.input ≠ "" ∧
    (∃ u b req p1 p2,
      submitSync chickenPage = (p1, some req) ∧ p1.chat = chickenPage.chat ++ [u] ∧
      submit (Outcome.parsed chickenData) chickenPage = .ok (p2, some req) ∧
      p2.chat = chickenPage.chat ++ [u, b] ∧
      u.isUser = true ∧ u.isBot = false ∧ b.isBot = true ∧ b.isUser = false) ∧
    (∀ p1 : Page, ∃ b p2, submitResume (Outcome.parsed chickenData) p1 = .ok p2 ∧
      p2.chat = p1.chat ++ [b] ∧ b.isBot = true ∧ b.isUser = false) :=
  ⟨by decide, submit_adds_user_then_bot (Outcome.parsed chickenData) chickenPage (by decide)⟩

/-- C2: a query that is empty after trimming makes the handler a no-op: the page
(log and fields) is left as it was and no `fetch` call is issued. -/
theorem submit_empty_query_noop {ν : Type} [JsNumber ν] (o : Outcome ν) (p : Page)
    (hq : trim p.input = "") :
    submitSync p = (p, none) ∧ submit o p = .ok (p, none) :=
  ⟨submitSync_empty p hq, submit_empty o p hq⟩

theorem submit_empty_query_noop_witness :
    trim ({ initialPage with input := " \t\n ", weight := "150" } : Page).input = "" ∧
    submitSync { initialPage with input := " \t\n ", weight := "150" } =
      ({ initialPage with input := " \t\n ", weight := "150" }, none) ∧
    submit (Outcome.parsed chickenData) { initialPage with input := " \t\n ", weight := "150" } =
      .ok ({ initialPage with input := " \t\n ", weight := "150" }, none) :=
  ⟨by decide, submit_empty_query_noop (Outcome.parsed chickenData) _ (by decide)⟩

/-- C3: for a query `q` non-empty after trimming, the user entry appended has the
text `trim q` when the trimmed weight text is empty and `trim q`, a space, the
trimmed weight text and `g` otherwise. -/
theorem user_entry_text (p : Page) (hq : trim p.input ≠ "") :
    (submitSync p).1.chat = p.chat ++
      [{ className := "msg user",
         textContent :=
          if trim p.weight = "" then trim p.input
          else trim p.input ++ " " ++ trim p.weight ++ "g" }] := by
  rw [submitSync_nonempty p hq]
  by_cases hw : trim p.weight = ""
  · simp [hw, strTruthy]
  · simp [hw, strTruthy]

theorem user_entry_text_witness :
    (trim chickenPage.input ≠ "" ∧
      (submitSync chickenPage).1.chat = chickenPage.chat ++
        [{ className := "msg user",
           textContent :=
            if trim chickenPage.weight = "" then trim chickenPage.input
            else trim chickenPage.input ++ " " ++ trim chickenPage.weight ++ "g" }]) ∧
    (submitSync chickenPage).1.chat = chickenPage.chat ++ [⟨"msg user", "chicken 150g"⟩] ∧
    (submitSync bananaPage).1.chat = bananaPage.chat ++ [⟨"msg user", "banana"⟩] :=
  ⟨⟨by decide, user_entry_text chickenPage (by decide)⟩, by decide, by decide⟩

/-- C7: when `fetch` rejects or the body fails to parse, and more generally
whenever the `try` block throws, the bot entry reads `Network/server error` and
the handler completes normally; a submission with a non-empty query then ends
with the user entry followed by that bot entry. The handler never completes
with an error, whatever the page and the outcome. -/
theorem failure_renders_network_error {ν : Type} [JsNumber ν] (p : Page) :
    submitResume (Outcome.fetchRejected : Outcome ν) p =
      .ok (appendMsg "Network/server error" "bot" p) ∧
    submitResume (Outcome.jsonRejected : Outcome ν) p =
      .ok (appendMsg "Network/server error" "bot" p) ∧
    (∀ (o : Outcome ν) (e : JsError), tryBlock o p = .error e →
      submitResume o p = .ok (appendMsg "Network/server error" "bot" p)) ∧
    (∀ o : Outcome ν, o = .fetchRejected ∨ o = .jsonRejected → trim p.input ≠ "" →
      ∃ u req, submit o p =
        .ok ({ chat := p.chat ++ [u, ⟨"msg bot", "Network/server error"⟩],
               input := "", weight := "" }, some req)) ∧
    (∀ o : Outcome ν, ∃ r, submit o p = .ok r) := by
  refine ⟨rfl, rfl, ?_, ?_, ?_⟩
  · intro o e h
    simp [submitResume, h]
  · intro o ho hq
    have hb : botText o = .error .rejected := by
      rcases ho with rfl | rfl <;> rfl
    simp only [submit, submitSync_nonempty p hq, submitResume_of_throw o _ _ hb, bind,
      Except.bind, pure, Except.pure, appendMsg, List.append_assoc, List.cons_append,
      List.nil_append]
    exact ⟨_, _, rfl⟩
  · intro o
    by_cases hq : trim p.input = ""
    · exact ⟨_, submit_empty o p hq⟩
    · obtain ⟨t, ht⟩ := submit_nonempty o p hq
      exact ⟨_, ht⟩

theorem failure_renders_network_error_witness :
    trim chickenPage.input ≠ "" ∧
    ∃ u req, submit (Outcome.fetchRejected : Outcome SafeInteger) chickenPage =
      .ok ({ chat := chickenPage.chat ++ [u, ⟨"msg bot", "Network/server error"⟩],
             input := "", weight := "" }, some req) :=
  ⟨by decide,
    (failure_renders_network_error chickenPage).2.2.2.1 _ (Or.inl rfl) (by decide)⟩

/-- C9: for a query non-empty after trimming, both fields hold the empty string
once the synchronous part has run and when the handler has completed, whatever
the outcome; the part of the handler that runs after the network call leaves
both fields of any page as it finds them. -/
theorem fields_cleared {ν : Type} [JsNumber ν] (o : Outcome ν) (p : Page)
    (hq : trim p.input ≠ "") :
    ((submitSync p).1.input = "" ∧ (submitSync p).1.weight = "") ∧
    (∃ r, submit o p = .ok r ∧ r.1.input = "" ∧ r.1.weight = "") ∧
    (∀ p1 : Page, ∃ p2, submitResume o p1 = .ok p2 ∧
      p2.input = p1.input ∧ p2.weight = p1.weight) := by
  refine ⟨?_, ?_, ?_⟩
  · rw [submitSync_nonempty p hq]
    exact ⟨rfl, rfl⟩
  · obtain ⟨t, ht⟩ := submit_nonempty o p hq
    refine ⟨_, ht, ?_⟩
    rw [submitSync_nonempty p hq]
    exact ⟨rfl, rfl⟩
  · intro p1
    obtain ⟨t, ht⟩ := submitResume_total o p1
    exact ⟨_, ht, rfl, rfl⟩

theorem fields_cleared_witness :
    trim chickenPage.input ≠ "" ∧
    ((submitSync chickenPage).1.input = "" ∧ (submitSync chickenPage).1.weight = "") ∧
    (∃ r, submit (Outcome.jsonRejected : Outcome SafeInteger) chickenPage = .ok r ∧
      r.1.input = "" ∧ r.1.weight = "") ∧
    (∀ p1 : Page, ∃ p2, submitResume (Outcome.jsonRejected : Outcome SafeInteger) p1 = .ok p2 ∧
      p2.input = p1.input ∧ p2.weight = p1.weight) :=
  ⟨by decide, fields_cleared (Outcome.jsonRejected : Outcome SafeInteger) chickenPage (by decide)⟩

/-- C10: the log is append-only. `appendMsg` yields the previous log followed by
one new entry and leaves both fields alone; for every page and every outcome the
handler completes with a log of which the log before is a prefix, so each
earlier entry is still there, at its index, with its class and text. -/
theorem log_append_only {ν : Type} [JsNumber ν] :
    (∀ (text role : String) (p : Page),
      (appendMsg text role p).chat = p.chat ++
        [{ className := "msg " ++ (if role = "user" then "user" else "bot"),
           textContent := text }] ∧
      (appendMsg text role p).input = p.input ∧
      (appendMsg text role p).weight = p.weight) ∧
    (∀ (o : Outcome ν) (p : Page), ∃ r, submit o p = .ok r ∧ p.chat <+: r.1.chat ∧
      ∀ i, i < p.chat.length → r.1.chat[i]? = p.chat[i]?) := by
  refine ⟨fun text role p => ⟨rfl, rfl, rfl⟩, ?_⟩
  intro o p
  by_cases hq : trim p.input = ""
  · exact ⟨_, submit_empty o p hq, List.prefix_refl _, fun _ _ => rfl⟩
  · obtain ⟨t, ht⟩ := submit_nonempty o p hq
    refine ⟨_, ht, ?_, ?_⟩
    · rw [submitSync_nonempty p hq]
      simp [appendMsg]
    · intro i hi
      rw [submitSync_nonempty p hq]
      simp [appendMsg, List.getElem?_append_left, hi]

/-- C5: for a parsed response object whose `ok` is truthy, the bot entry text is
`matched_name`, a space, `(`, `weight_g`, `g)`, a newline, then `Calories:`,
`Protein:`, `Carbs:` and `Fat:` each followed by its field and separated by one
space. A string field enters as it is and a number field, any double, as
`Number::toString` writes that double; in general each field enters as its
`ToString`. -/
theorem success_renders_summary (fields : List (String × JsVal JsDouble))
    (p : Page) (hok : toBoolean (fields.lookup "ok") = true) :
    (∀ (name : String) (w c pr cb f : JsDouble),
      fields.lookup "matched_name" = some (.str name) →
      fields.lookup "weight_g" = some (.num w) →
      fields.lookup "calories" = some (.num c) →
      fields.lookup "protein" = some (.num pr) →
      fields.lookup "carbs" = some (.num cb) →
      fields.lookup "fat" = some (.num f) →
      submitResume (.parsed (.obj fields)) p =
        .ok (appendMsg (name ++ " (" ++ numberToString w ++ "g)\nCalories:" ++
          numberToString c ++ " Protein:" ++ numberToString pr ++
          " Carbs:" ++ numberToString cb ++ " Fat:" ++ numberToString f) "bot" p)) ∧
    (∀ name w c pr cb f : String,
      toStr (fields.lookup "matched_name") = .ok name →
      toStr (fields.lookup "weight_g") = .ok w →
      toStr (fields.lookup "calories") = .ok c →
      toStr (fields.lookup "protein") = .ok pr →
      toStr (fields.lookup "carbs") = .ok cb →
      toStr (fields.lookup "fat") = .ok f →
      submitResume (.parsed (.obj fields)) p =
        .ok (appendMsg (name ++ " (" ++ w ++ "g)\nCalories:" ++ c ++ " Protein:" ++ pr ++
          " Carbs:" ++ cb ++ " Fat:" ++ f) "bot" p)) := by
  refine ⟨?_, fun name w c pr cb f => submitResume_summary fields p hok name w c pr cb f⟩
  intro name w c pr cb f h1 h2 h3 h4 h5 h6
  exact submitResume_summary fields p hok _ _ _ _ _ _ (toStr_str _ _ h1) (toStr_num _ _ h2)
    (toStr_num _ _ h3) (toStr_num _ _ h4) (toStr_num _ _ h5) (toStr_num _ _ h6)

theorem success_renders_summary_witness :
    (toBoolean (chickenDoubles.lookup "ok") = true ∧
      submitResume (.parsed (.obj chickenDoubles)) initialPage =
        .ok (appendMsg "Chicken Breast (150g)\nCalories:248 Protein:46 Carbs:0 Fat:5" "bot"
          initialPage)) ∧
    (toBoolean (appleDoubles.lookup "ok") = true ∧
      submitResume (.parsed (.obj appleDoubles)) initialPage =
        .ok (appendMsg "Apple (100.5g)\nCalories:52.25 Protein:0.3 Carbs:13.8 Fat:0.2" "bot"
          initialPage)) :=
  ⟨⟨rfl, (success_renders_summary chickenDoubles initialPage rfl).1 "Chicken Breast"
      (.finite false 150 0 (by decide) (by decide))
      (.finite false 248 0 (by decide) (by decide))
      (.finite false 46 0 (by decide) (by decide))
      (.zero false)
      (.finite false 5 0 (by decide) (by decide))
      rfl rfl rfl rfl rfl rfl⟩,
    ⟨rfl, (success_renders_summary appleDoubles initialPage rfl).1 "Apple"
      (.finite false 201 (-1) (by decide) (by decide))
      (.finite false 209 (-2) (by decide) (by decide))
      (.finite false 5404319552844595 (-54) (by decide) (by decide))
      (.finite false 3884354678607053 (-48) (by decide) (by decide))
      (.finite false 3602879701896397 (-54) (by decide) (by decide))
      rfl rfl rfl rfl rfl rfl⟩⟩

/-- C6: for a parsed response object whose `ok` is falsy, the bot entry text is
the `message` field when it is a non-empty string, and `Food not found` when the
field is absent, the empty string, or any other falsy value. -/
theorem failure_renders_message {ν : Type} [JsNumber ν] (fields : List (String × JsVal ν))
    (p : Page) (hok : toBoolean (fields.lookup "ok") = false) :
    (∀ s : String, fields.lookup "message" = some (.str s) → s ≠ "" →
      submitResume (.parsed (.obj fields)) p = .ok (appendMsg s "bot" p)) ∧
    (fields.lookup "message" = none ∨ fields.lookup "message" = some (.str "") →
      submitResume (.parsed (.obj fields)) p = .ok (appendMsg "Food not found" "bot" p)) ∧
    (toBoolean (fields.lookup "message") = false →
      submitResume (.parsed (.obj fields)) p = .ok (appendMsg "Food not found" "bot" p)) := by
  have falsy : toBoolean (fields.lookup "message") = false →
      submitResume (.parsed (.obj fields)) p = .ok (appendMsg "Food not found" "bot" p) := by
    intro hm
    apply submitResume_of_text
    simp [botText, awaitData, JsVal.getProp, hok, hm, bind, Except.bind, pure, Except.pure]
  refine ⟨?_, ?_, falsy⟩
  · intro s hs hne
    apply submitResume_of_text
    have hm : toBoolean (fields.lookup "message") = true := by
      rw [hs]; simp [toBoolean, strTruthy, hne]
    simp [botText, awaitData, JsVal.getProp, hok, hm, bind, Except.bind]
    rw [hs]; simp [toStr, JsVal.toStr]
  · intro h
    apply falsy
    rcases h with h | h <;> rw [h] <;> simp [toBoolean, strTruthy]

theorem failure_renders_message_witness :
    (toBoolean (ambiguousFields.lookup "ok") = false ∧
      submitResume (.parsed (.obj ambiguousFields)) initialPage =
        .ok (appendMsg "Ambiguous match" "bot" initialPage)) ∧
    submitResume (.parsed (.obj notFoundFields)) initialPage =
      .ok (appendMsg "Food not found" "bot" initialPage) :=
  ⟨⟨rfl, (failure_renders_message ambiguousFields initialPage rfl).1 "Ambiguous match" rfl
      (by decide)⟩,
    (failure_renders_message notFoundFields initialPage rfl).2.1 (Or.inl rfl)⟩

/-- C4 as stated fails: the weight text `9007199254740993` is a decimal numeral
for `2^53 + 1`, which is not a double; `parseInt` returns the nearest double and
the body carries `9007199254740992`. -/
theorem request_body_rounds_large_weight :
    trim ({ initialPage with input := "chicken", weight := "9007199254740993" } : Page).input
      ≠ "" ∧
    decimalNumeral (trim "9007199254740993").data = some 9007199254740993 ∧
    (submitSync { initialPage with input := "chicken", weight := "9007199254740993" }).2.map
        Request.body =
      some [("query", .str "chicken"), ("weight_g", .num 9007199254740992)] ∧
    (submitSync { initialPage with input := "chicken", weight := "9007199254740993" }).2.map
        Request.body ≠
      some [("query", .str "chicken"), ("weight_g", .num 9007199254740993)] := by
  decide

/-- C4, amended: for a query `q` non-empty after trimming a `fetch` call is
issued, a `POST` to `/api/nutrition` with content type `application/json`. When
the trimmed weight text is empty the body is the single member `query`; when it
is a decimal numeral for an integer `n` with `|n| ≤ 2^53` the body is `query`
followed by `weight_g` with value `n`; the body has a `weight_g` member exactly
when the trimmed weight text is non-empty. -/
theorem request_body (p : Page) (hq : trim p.input ≠ "") :
    ∃ req, (submitSync p).2 = some req ∧
      req.url = "/api/nutrition" ∧ req.method = "POST" ∧
      req.headers = [("Content-Type", "application/json")] ∧
      (trim p.weight = "" → req.body = [("query", .str (trim p.input))]) ∧
      (∀ n : Int, decimalNumeral (trim p.weight).data = some n → n.natAbs ≤ 2 ^ 53 →
        req.body = [("query", .str (trim p.input)), ("weight_g", .num n)]) ∧
      ((∃ v, ("weight_g", v) ∈ req.body) ↔ trim p.weight ≠ "") := by
  rw [submitSync_nonempty p hq]
  refine ⟨_, rfl, rfl, rfl, rfl, ?_, ?_, ?_⟩
  · intro hw
    simp [hw, strTruthy, stringifyBody, stringifyProp]
  · intro n hn hb
    have hts := trimStart_trim p.weight
    unfold decimalNumeral at hn
    split at hn
    · rename_i ds hds
      obtain ⟨v, hv, hnv⟩ := Option.map_eq_some'.1 hn
      obtain ⟨hne, hd, hvd⟩ := unsignedNumeral_some ds v hv
      subst hnv hvd
      have hw : strTruthy (trim p.weight) = true :=
        (strTruthy_iff _).2 (string_ne_empty_of_data _ _ _ hds)
      have hb' : digitsValue ds ≤ 2 ^ 53 := by simpa using hb
      simp [hw, stringifyBody, stringifyProp,
        parseInt_of_minus_digits _ ds (hts.trans hds) hne hd hb']
    · obtain ⟨v, hv, hnv⟩ := Option.map_eq_some'.1 hn
      obtain ⟨hne, hd, hvd⟩ := unsignedNumeral_some _ v hv
      subst hnv hvd
      obtain ⟨c, t, hct⟩ := List.exists_cons_of_ne_nil hne
      have hw : strTruthy (trim p.weight) = true :=
        (strTruthy_iff _).2 (string_ne_empty_of_data _ _ _ hct)
      have hb' : digitsValue (trim p.weight).data ≤ 2 ^ 53 := by simpa using hb
      simp [hw, stringifyBody, stringifyProp, parseInt_of_digits _ _ hts hne hd hb']
  · by_cases hw : trim p.weight = ""
    · simp [hw, strTruthy, stringifyBody, stringifyProp]
    · have hw' : strTruthy (trim p.weight) = true := (strTruthy_iff _).2 hw
      simp only [hw', if_true, ne_eq, hw, not_false_eq_true, iff_true]
      rcases h : parseInt (trim p.weight) with _ | b | k
      · exact ⟨.null, by simp [stringifyBody, stringifyProp]⟩
      · exact ⟨.null, by simp [stringifyBody, stringifyProp]⟩
      · exact ⟨.num k, by simp [stringifyBody, stringifyProp]⟩

theorem request_body_witness :
    trim chickenPage.input ≠ "" ∧
    decimalNumeral (trim chickenPage.weight).data = some 150 ∧
    (submitSync chickenPage).2.map Request.body =
      some [("query", .str "chicken"), ("weight_g", .num 150)] ∧
    (submitSync bananaPage).2.map Request.body = some [("query", .str "banana")] ∧
    ∃ req, (submitSync chickenPage).2 = some req ∧
      req.url = "/api/nutrition" ∧ req.method = "POST" ∧
      req.headers = [("Content-Type", "application/json")] ∧
      (trim chickenPage.weight = "" → req.body = [("query", .str (trim chickenPage.input))]) ∧
      (∀ n : Int, decimalNumeral (trim chickenPage.weight).data = some n →
        n.natAbs ≤ 2 ^ 53 →
        req.body = [("query", .str (trim chickenPage.input)), ("weight_g", .num n)]) ∧
      ((∃ v, ("weight_g", v) ∈ req.body) ↔ trim chickenPage.weight ≠ "") :=
  ⟨by decide, by decide, by decide, by decide, request_body chickenPage (by decide)⟩

/-- C8 as stated fails: with the weight text `-5` the body carries `weight_g`
with the negative value `-5`, and with the weight text `abc` it carries
`weight_g` with the value `null`. -/
theorem weight_value_may_be_negative_or_null :
    ((submitSync { initialPage with input := "chicken", weight := "-5" }).2.map
        Request.body =
      some [("query", .str "chicken"), ("weight_g", .num (-5))] ∧
      (Json.num (-5)).isNonNegInteger = false) ∧
    ((submitSync { initialPage with input := "chicken", weight := "abc" }).2.map
        Request.body =
      some [("query", .str "chicken"), ("weight_g", .null)] ∧
      Json.null.isNonNegInteger = false) := by
  decide

/-- C8, amended: whenever the posted body carries a `weight_g` value, that value
is `null` or an integer, and unless the trimmed weight text begins with a minus
sign it is `null` or a non-negative integer. When the trimmed weight text
consists of decimal digits only and writes a number below `2^1024 - 2^970`, the
value is a non-negative integer. -/
theorem weight_value_shape (p : Page) (req : Request) (v : Json)
    (hreq : (submitSync p).2 = some req) (hv : ("weight_g", v) ∈ req.body) :
    (v = .null ∨ ∃ k : Int, v = .num k) ∧
    ((trim p.weight).data.head? ≠ some '-' → v = .null ∨ v.isNonNegInteger = true) ∧
    (∀ n : Nat, unsignedNumeral (trim p.weight).data = some n → n < overflowThreshold →
      v.isNonNegInteger = true) := by
  by_cases hq : trim p.input = ""
  · rw [submitSync_empty p hq] at hreq
    simp at hreq
  · rw [submitSync_nonempty p hq] at hreq
    simp only [Option.some.injEq] at hreq
    subst hreq
    simp only [stringifyBody, stringifyProp, List.singleton_append, List.mem_cons,
      Prod.mk.injEq] at hv
    rcases hv with ⟨h, _⟩ | hv
    · exact absurd h (by decide)
    · by_cases hw : strTruthy (trim p.weight) = true
      · rw [if_pos hw] at hv
        have hts := trimStart_trim p.weight
        have positive : ∀ n : Nat, unsignedNumeral (trim p.weight).data = some n →
            n < overflowThreshold → v.isNonNegInteger = true := by
          intro n hn hlt
          obtain ⟨hne, hd, hvd⟩ := unsignedNumeral_some _ n hn
          subst hvd
          obtain ⟨d, hd'⟩ := toDouble_finite _ hlt
          rw [parseInt_of_digits_general _ _ hts hne hd, hd'] at hv
          simp [stringifyProp] at hv
          simp [hv, Json.isNonNegInteger]
        refine ⟨?_, ?_, positive⟩
        · rcases parseInt_cases (trim p.weight) with h | ⟨b, h⟩ | ⟨n, h⟩ | ⟨n, h, _⟩
          · rw [h] at hv
            simp [stringifyProp] at hv
            simp [hv]
          · rw [h] at hv
            simp [stringifyProp] at hv
            simp [hv]
          · rw [h] at hv
            simp [stringifyProp] at hv
            simp [hv]
          · rw [h] at hv
            simp [stringifyProp] at hv
            simp [hv]
        · rcases parseInt_cases (trim p.weight) with h | ⟨b, h⟩ | ⟨n, h⟩ | ⟨n, h, hm⟩
          · rw [h] at hv
            simp [stringifyProp] at hv
            simp [hv]
          · rw [h] at hv
            simp [stringifyProp] at hv
            simp [hv]
          · rw [h] at hv
            simp [stringifyProp] at hv
            simp [hv, Json.isNonNegInteger]
          · rw [hts] at hm
            simp [hm]
      · simp only [hw] at hv
        simp [stringifyProp] at hv

theorem weight_value_shape_witness :
    (submitSync chickenPage).2 =
      some { url := "/api/nutrition", method := "POST",
             headers := [("Content-Type", "application/json")],
             body := [("query", .str "chicken"), ("weight_g", .num 150)] } ∧
    ("weight_g", Json.num 150) ∈ [("query", Json.str "chicken"), ("weight_g", Json.num 150)] ∧
    ((Json.num 150 = .null ∨ ∃ k : Int, Json.num 150 = .num k) ∧
      ((trim chickenPage.weight).data.head? ≠ some '-' →
        Json.num 150 = .null ∨ (Json.num 150).isNonNegInteger = true) ∧
      (∀ n : Nat, unsignedNumeral (trim chickenPage.weight).data = some n →
        n < overflowThreshold → (Json.num 150).isNonNegInteger = true)) :=
  ⟨by decide, by decide,
    weight_value_shape chickenPage
      { url := "/api/nutrition", method := "POST",
        headers := [("Content-Type", "application/json")],
        body := [("query", .str "chicken"), ("weight_g", .num 150)] }
      (.num 150) (by decide) (by decide)⟩

end Chat
